import Mathlib

/- Shallow embedding of src/crates/nx-syntax/src/scanner.c, the external
   scanner for NX text-content tokens.

   The TSLexer cursor is modelled by the suffix of the input that starts at
   the cursor, together with a count of characters consumed since the start
   of the scan.  The C lookahead sentinel 0 (end of input) corresponds to the
   empty suffix.  mark_end is modelled by an optional count of the committed
   token end; when mark_end was never called the token ends at the final
   cursor position, as in tree-sitter.  The struct copy and assignment used
   by the C code for speculative lookahead are modelled as value-level
   snapshot and restore of the cursor, per the design notes of the spec. -/

/-- Token kinds of the external scanner (enum TokenType in scanner.c). -/
inductive TokenType where
  | TEXT_CHUNK
  | EMBED_TEXT_CHUNK
  | ENTITY
  | ESCAPED_LBRACE
  | ESCAPED_RBRACE
  | ESCAPED_AT
deriving DecidableEq

/-- Legality set: the valid_symbols array handed to the scanner by the parser,
    one flag per token kind. -/
structure ValidSymbols where
  text_chunk : Bool
  embed_text_chunk : Bool
  entity : Bool
  escaped_lbrace : Bool
  escaped_rbrace : Bool
  escaped_at : Bool
deriving DecidableEq

/-- Left brace character, written via its code point. -/
def lbraceChar : Char := '\x7b'

/-- Right brace character, written via its code point. -/
def rbraceChar : Char := '\x7d'

/-- ASCII decimal digit test, mirroring lookahead >= '0' && lookahead <= '9'. -/
def isAsciiDigit (c : Char) : Bool := '0' ≤ c && c ≤ '9'

/-- ASCII letter test, mirroring the a-z / A-Z range checks in scanner.c. -/
def isAsciiLetter (c : Char) : Bool :=
  ('a' ≤ c && c ≤ 'z') || ('A' ≤ c && c ≤ 'Z')

/-- Hexadecimal digit test, mirroring the 0-9 / a-f / A-F range checks. -/
def isHexDigit (c : Char) : Bool :=
  isAsciiDigit c || ('a' ≤ c && c ≤ 'f') || ('A' ≤ c && c ≤ 'F')

/-- Letter-or-digit test used by the named-entity loop in scan_entity. -/
def isAlnumAscii (c : Char) : Bool := isAsciiLetter c || isAsciiDigit c

/-- Test a predicate on the lookahead character of a cursor suffix; false at
    end of input, matching comparisons against the 0 sentinel in C. -/
def headIs (p : Char → Bool) : List Char → Bool
  | [] => false
  | c :: _ => p c

/-- Number of consecutive leading characters satisfying p: the number of
    advance() calls made by a while (p(lookahead)) advance() loop in C. -/
def skipCount (p : Char → Bool) : List Char → Nat
  | [] => 0
  | c :: rest => if p c then skipCount p rest + 1 else 0

/-- Embedding of is_entity_start from scanner.c: peek whether the suffix looks
    like the start of an entity.  In the C code every call site wraps this in
    a snapshot and restore of the cursor, so only the boolean matters. -/
def is_entity_start : List Char → Bool
  | '&' :: s1 =>
    match s1 with
    | '#' :: s2 =>
      match s2 with
      | c :: s3 => if c = 'x' ∨ c = 'X' then headIs isHexDigit s3 else isAsciiDigit c
      | [] => false
    | _ => headIs isAsciiLetter s1
  | _ => false

/-- Embedding of scan_entity from scanner.c.  Returns whether a complete
    entity was scanned, together with the number of characters the cursor
    consumed (also on failure, where the C code leaves the cursor after the
    last advance it made). -/
def scan_entity : List Char → Bool × Nat
  | '&' :: s1 =>
    match s1 with
    | '#' :: s2 =>
      match s2 with
      | c :: s3 =>
        if c = 'x' ∨ c = 'X' then
          if headIs isHexDigit s3 then
            if (s3.drop (skipCount isHexDigit s3)).head? = some ';'
            then (true, 3 + skipCount isHexDigit s3 + 1) else (false, 3 + skipCount isHexDigit s3)
          else (false, 3)
        else
          if isAsciiDigit c then
            if ((c :: s3).drop (skipCount isAsciiDigit (c :: s3))).head? = some ';'
            then (true, 2 + skipCount isAsciiDigit (c :: s3) + 1)
            else (false, 2 + skipCount isAsciiDigit (c :: s3))
          else (false, 2)
      | [] => (false, 2)
    | _ =>
      if headIs isAsciiLetter s1 then
        if (s1.drop (skipCount isAlnumAscii s1)).head? = some ';'
        then (true, 1 + skipCount isAlnumAscii s1 + 1) else (false, 1 + skipCount isAlnumAscii s1)
      else (false, 1)
  | _ => (false, 0)

/-- Embedding of the text-chunk while loop of
    tree_sitter_nx_external_scanner_scan (scanner.c lines 237-302).
    Arguments: embed mode flag, allow_entity flag, the remaining input, the
    count n of characters consumed since the start of the scan, the committed
    mark_end count (none if mark_end was never called), and has_content.
    Result: (has_content at exit, mark_end count, cursor count at exit);
    the caller emits a chunk token exactly when the first component is true. -/
def scan_chunk_loop (em ae : Bool) : List Char → Nat → Option Nat → Bool → Bool × Option Nat × Nat
  | [], n, marked, hc => (hc, marked, n)
  | c :: rs, n, marked, hc =>
    if c = '<' then (hc, marked, n)
    else if em = true ∧ c = '@' ∧ rs.head? = some lbraceChar then (hc, marked, n)
    else if c = lbraceChar ∨ c = rbraceChar then (hc, marked, n)
    else if c = '\\' then
      if rs.head? = some lbraceChar ∨ rs.head? = some rbraceChar ∨ (em = true ∧ rs.head? = some '@')
      then (hc, some n, n + 1)
      else scan_chunk_loop em ae rs (n + 1) (some n) true
    else if ae = true ∧ c = '&' ∧ is_entity_start (c :: rs) = true then (hc, marked, n)
    else scan_chunk_loop em ae rs (n + 1) (some (n + 1)) true

/-- Turn the chunk-loop exit state into the scan result: when has_content is
    true the chunk token is emitted with length given by the committed
    mark_end (defaulting to the cursor position), else no token. -/
def finishChunk (ck : TokenType) : Bool × Option Nat × Nat → Option TokenType × Nat × Nat
  | (true, marked, u) => (some ck, marked.getD u, u)
  | (false, marked, u) => (none, marked.getD u, u)

/-- Embedding of tree_sitter_nx_external_scanner_scan from scanner.c.  Result:
    the emitted token kind (none for no match), the token length (count of
    characters from the scan start to the committed end; meaningful when a
    token is emitted), and the number of characters the cursor consumed
    during the call (including speculative consumption on failure paths). -/
def tree_sitter_nx_external_scanner_scan (v : ValidSymbols) (s : List Char) :
    Option TokenType × Nat × Nat :=
  let allow_any := v.text_chunk || v.embed_text_chunk
  let ck := if v.embed_text_chunk then TokenType.EMBED_TEXT_CHUNK else TokenType.TEXT_CHUNK
  let em := v.embed_text_chunk
  match s with
  | '\\' :: s1 =>
    if s1.head? = some lbraceChar then
      if v.escaped_lbrace then (some TokenType.ESCAPED_LBRACE, 2, 2) else (none, 1, 1)
    else if s1.head? = some rbraceChar then
      if v.escaped_rbrace then (some TokenType.ESCAPED_RBRACE, 2, 2) else (none, 1, 1)
    else if s1.head? = some '@' ∧ v.escaped_at = true then (some TokenType.ESCAPED_AT, 2, 2)
    else if allow_any then (some ck, 1, 1)
    else (none, 1, 1)
  | _ =>
    if s.head? = some '&' ∧ v.entity = true then
      let r := scan_entity s
      if r.1 then (some TokenType.ENTITY, r.2, r.2)
      else if allow_any then finishChunk ck (scan_chunk_loop em v.entity (s.drop r.2) r.2 none false)
      else (none, r.2, r.2)
    else if allow_any then finishChunk ck (scan_chunk_loop em v.entity s 0 none false)
    else (none, 0, 0)

/-- The three entity shapes of the spec: named entity, decimal numeric entity,
    and hexadecimal numeric entity, each including the terminating semicolon. -/
def EntityShape (t : List Char) : Prop :=
  (∃ c ds, isAsciiLetter c = true ∧ (∀ d ∈ ds, isAlnumAscii d = true) ∧
      t = '&' :: c :: (ds ++ [';'])) ∨
  (∃ ds, ds ≠ [] ∧ (∀ d ∈ ds, isAsciiDigit d = true) ∧
      t = '&' :: '#' :: (ds ++ [';'])) ∨
  (∃ x ds, (x = 'x' ∨ x = 'X') ∧ ds ≠ [] ∧ (∀ d ∈ ds, isHexDigit d = true) ∧
      t = '&' :: '#' :: x :: (ds ++ [';']))

/-- Whether a token kind is in the legality set: the lookup the C code
    performs as valid_symbols[kind]. -/
def legalFor (v : ValidSymbols) : TokenType → Bool
  | TokenType.TEXT_CHUNK => v.text_chunk
  | TokenType.EMBED_TEXT_CHUNK => v.embed_text_chunk
  | TokenType.ENTITY => v.entity
  | TokenType.ESCAPED_LBRACE => v.escaped_lbrace
  | TokenType.ESCAPED_RBRACE => v.escaped_rbrace
  | TokenType.ESCAPED_AT => v.escaped_at

/-- The chunk loop with has_content already true always emits a chunk. -/
theorem scan_chunk_loop_true_emits (em ae : Bool) :
    ∀ (rest : List Char) (n : Nat) (marked : Option Nat),
    (scan_chunk_loop em ae rest n marked true).1 = true := by
  intro rest
  induction rest with
  | nil => intro n marked; rfl
  | cons c rs ih =>
    intro n marked
    simp only [scan_chunk_loop]
    split_ifs <;> first | rfl | apply ih

/-- If the chunk loop starts with no content at a position whose lookahead is
    not a backslash and fails to emit, the cursor has not moved. -/
theorem scan_chunk_loop_no_content_stay (em ae : Bool) (rest : List Char) (n : Nat)
    (marked : Option Nat) (h : rest.head? ≠ some '\\')
    (hf : (scan_chunk_loop em ae rest n marked false).1 = false) :
    (scan_chunk_loop em ae rest n marked false).2.2 = n := by
  cases rest with
  | nil => rfl
  | cons c rs =>
    simp only [scan_chunk_loop] at hf ⊢
    split_ifs at hf ⊢ with h1 h2 h3 h4 h5 h6
    · rfl
    · rfl
    · rfl
    · exact absurd (by simp [h4]) h
    · exact absurd (by simp [h4]) h
    · rfl
    · rw [scan_chunk_loop_true_emits] at hf; exact absurd hf (by simp)

/-- Whenever the chunk loop emits, the committed end is a marked count of at
    least one character, provided the loop was entered in a state where any
    prior content or a leading backslash means at least one character was
    already consumed. -/
theorem scan_chunk_loop_emit_marked (em ae : Bool) :
    ∀ (rest : List Char) (n : Nat) (marked : Option Nat) (hc : Bool),
    (hc = true → 1 ≤ n ∧ ∃ mv, marked = some mv ∧ 1 ≤ mv) →
    (hc = false → rest.head? = some '\\' → 1 ≤ n) →
    (scan_chunk_loop em ae rest n marked hc).1 = true →
    ∃ mv, (scan_chunk_loop em ae rest n marked hc).2.1 = some mv ∧ 1 ≤ mv := by
  intro rest
  induction rest with
  | nil =>
    intro n marked hc h1 h2 hemit
    exact (h1 hemit).2
  | cons c rs ih =>
    intro n marked hc h1 h2 hemit
    simp only [scan_chunk_loop] at hemit ⊢
    split_ifs at hemit ⊢ with e1 e2 e3 e4 e5 e6
    · exact (h1 hemit).2
    · exact (h1 hemit).2
    · exact (h1 hemit).2
    · exact ⟨n, rfl, (h1 hemit).1⟩
    · have hn : 1 ≤ n := by
        cases hc with
        | false => exact h2 rfl (by simp [e4])
        | true => exact (h1 rfl).1
      exact ih (n + 1) (some n) true
        (fun _ => ⟨Nat.le_succ_of_le hn, n, rfl, hn⟩) (fun hff _ => nomatch hff) hemit
    · exact (h1 hemit).2
    · exact ih (n + 1) (some (n + 1)) true
        (fun _ => ⟨Nat.succ_le_succ (Nat.zero_le n), n + 1, rfl, Nat.succ_le_succ (Nat.zero_le n)⟩)
        (fun hff _ => nomatch hff) hemit

/-- Letters count as letter-or-digit characters. -/
theorem isAlnumAscii_of_letter (c : Char) (h : isAsciiLetter c = true) :
    isAlnumAscii c = true := by
  simp [isAlnumAscii, h]

/-- Every character inside the prefix measured by skipCount satisfies the
    predicate of the corresponding while loop. -/
theorem take_skipCount_all (p : Char → Bool) :
    ∀ (s : List Char), ∀ d ∈ s.take (skipCount p s), p d = true := by
  intro s
  induction s with
  | nil => simp
  | cons c t ih =>
    intro d hd
    by_cases hp : p c = true
    · simp only [skipCount, if_pos hp, List.take_succ_cons] at hd
      rcases List.mem_cons.mp hd with h | h
      · rw [h]; exact hp
      · exact ih d h
    · simp only [skipCount, if_neg hp, List.take, List.not_mem_nil] at hd

/-- A while loop whose first lookahead satisfies the entry test makes at least
    one advance, where the entry test implies the loop test. -/
theorem skipCount_pos (p q : Char → Bool) (h : ∀ c, p c = true → q c = true)
    (s : List Char) (hs : headIs p s = true) : 1 ≤ skipCount q s := by
  cases s with
  | nil => simp [headIs] at hs
  | cons c t =>
    simp only [headIs] at hs
    simp [skipCount, h c hs]

/-- Taking one character more than a prefix appends the head of the remaining
    suffix. -/
theorem take_drop_head (t : List Char) (k : Nat) (c : Char)
    (h : (t.drop k).head? = some c) : t.take (k + 1) = t.take k ++ [c] := by
  induction k generalizing t with
  | zero =>
    cases t with
    | nil => simp at h
    | cons a t2 =>
      simp only [List.drop_zero, List.head?_cons, Option.some.injEq] at h
      simp [h]
  | succ k ih =>
    cases t with
    | nil => simp at h
    | cons a t2 =>
      rw [List.drop_succ_cons] at h
      simp [List.take_succ_cons, ih t2 h]

/-- A failed scan_entity attempt that started at an ampersand consumed at
    least the ampersand. -/
theorem scan_entity_false_pos (s : List Char) (u : Nat) (h1 : s.head? = some '&')
    (h2 : scan_entity s = (false, u)) : 1 ≤ u := by
  unfold scan_entity at h2
  split at h2
  · split at h2
    · split at h2
      · split_ifs at h2 <;> (simp at h2; try omega)
      · simp at h2; omega
    · split_ifs at h2 <;> (simp at h2; try omega)
  · rename_i hno
    cases s with
    | nil => simp at h1
    | cons c t =>
      simp at h1
      exact absurd (by rw [h1]) (hno t)

/-- A successful scan_entity consumed at least three characters. -/
theorem scan_entity_true_min (s : List Char) (u : Nat)
    (h2 : scan_entity s = (true, u)) : 3 ≤ u := by
  unfold scan_entity at h2
  split at h2
  · split at h2
    · split at h2
      · split_ifs at h2 <;> (simp at h2; try omega)
      · simp at h2
    · split_ifs at h2 with hl hsemi <;> simp at h2
      have := skipCount_pos isAsciiLetter isAlnumAscii isAlnumAscii_of_letter _ hl
      omega
  · simp at h2

/-- A nonempty take from a suffix whose head satisfies the entry predicate is
    nonempty. -/
theorem take_ne_nil_of_head (p : Char → Bool) (s : List Char) (h : headIs p s = true)
    (k : Nat) (hk : 1 ≤ k) : s.take k ≠ [] := by
  cases s with
  | nil => simp [headIs] at h
  | cons a t =>
    cases k with
    | zero => omega
    | succ k => simp [List.take_succ_cons]

/-- Characterization of a successful scan_entity: the consumed characters form
    one of the three entity shapes, are at least three, and end with the
    terminating semicolon. -/
theorem scan_entity_shape (s : List Char) (u : Nat) (h2 : scan_entity s = (true, u)) :
    EntityShape (s.take u) ∧ 3 ≤ u ∧ (s.take u).getLast? = some ';' := by
  unfold scan_entity at h2
  split at h2
  · rename_i s1
    split at h2
    · rename_i s2
      split at h2
      · rename_i c s3
        split_ifs at h2 with hx hhd hsemi hdg hsemi2
        · -- hexadecimal numeric entity
          simp only [Prod.mk.injEq, true_and] at h2
          subst h2
          have hK : 1 ≤ skipCount isHexDigit s3 :=
            skipCount_pos isHexDigit isHexDigit (fun _ hh => hh) s3 hhd
          have ht : ('&' :: '#' :: c :: s3).take (3 + skipCount isHexDigit s3 + 1)
              = '&' :: '#' :: c :: s3.take (skipCount isHexDigit s3 + 1) := by
            rw [show 3 + skipCount isHexDigit s3 + 1
                = (skipCount isHexDigit s3 + 1) + 1 + 1 + 1 from by omega]
            simp [List.take_succ_cons]
          have hsc : s3.take (skipCount isHexDigit s3 + 1)
              = s3.take (skipCount isHexDigit s3) ++ [';'] :=
            take_drop_head s3 _ ';' hsemi
          refine ⟨Or.inr (Or.inr ⟨c, s3.take (skipCount isHexDigit s3), hx,
              take_ne_nil_of_head isHexDigit s3 hhd _ hK,
              fun d hd => take_skipCount_all isHexDigit s3 d hd, by rw [ht, hsc]⟩),
            by omega, ?_⟩
          rw [ht, hsc,
            show '&' :: '#' :: c :: (s3.take (skipCount isHexDigit s3) ++ [';'])
              = ('&' :: '#' :: c :: s3.take (skipCount isHexDigit s3)) ++ [';'] from by simp]
          exact List.getLast?_concat _
        · simp at h2
        · simp at h2
        · -- decimal numeric entity
          simp only [Prod.mk.injEq, true_and] at h2
          subst h2
          have hhead : headIs isAsciiDigit (c :: s3) = true := by simp [headIs, hdg]
          have hK : 1 ≤ skipCount isAsciiDigit (c :: s3) :=
            skipCount_pos isAsciiDigit isAsciiDigit (fun _ hh => hh) (c :: s3) hhead
          have ht : ('&' :: '#' :: c :: s3).take (2 + skipCount isAsciiDigit (c :: s3) + 1)
              = '&' :: '#' :: (c :: s3).take (skipCount isAsciiDigit (c :: s3) + 1) := by
            rw [show 2 + skipCount isAsciiDigit (c :: s3) + 1
                = (skipCount isAsciiDigit (c :: s3) + 1) + 1 + 1 from by omega]
            simp [List.take_succ_cons]
          have hsc : (c :: s3).take (skipCount isAsciiDigit (c :: s3) + 1)
              = (c :: s3).take (skipCount isAsciiDigit (c :: s3)) ++ [';'] :=
            take_drop_head (c :: s3) _ ';' hsemi2
          refine ⟨Or.inr (Or.inl ⟨(c :: s3).take (skipCount isAsciiDigit (c :: s3)),
              take_ne_nil_of_head isAsciiDigit (c :: s3) hhead _ hK,
              fun d hd => take_skipCount_all isAsciiDigit (c :: s3) d hd, by rw [ht, hsc]⟩),
            by omega, ?_⟩
          rw [ht, hsc,
            show '&' :: '#' :: ((c :: s3).take (skipCount isAsciiDigit (c :: s3)) ++ [';'])
              = ('&' :: '#' :: (c :: s3).take (skipCount isAsciiDigit (c :: s3))) ++ [';']
              from by simp]
          exact List.getLast?_concat _
        · simp at h2
        · simp at h2
      · simp at h2
    · -- named entity
      split_ifs at h2 with hl hsemi
      · simp only [Prod.mk.injEq, true_and] at h2
        subst h2
        cases s1 with
        | nil => simp [headIs] at hl
        | cons c1 t =>
          simp only [headIs] at hl
          have halnum : isAlnumAscii c1 = true := isAlnumAscii_of_letter c1 hl
          have hKeq : skipCount isAlnumAscii (c1 :: t) = skipCount isAlnumAscii t + 1 := by
            simp [skipCount, halnum]
          rw [hKeq] at hsemi ⊢
          rw [List.drop_succ_cons] at hsemi
          have ht : ('&' :: c1 :: t).take (1 + (skipCount isAlnumAscii t + 1) + 1)
              = '&' :: c1 :: t.take (skipCount isAlnumAscii t + 1) := by
            rw [show 1 + (skipCount isAlnumAscii t + 1) + 1
                = (skipCount isAlnumAscii t + 1) + 1 + 1 from by omega]
            simp [List.take_succ_cons]
          have hsc : t.take (skipCount isAlnumAscii t + 1)
              = t.take (skipCount isAlnumAscii t) ++ [';'] :=
            take_drop_head t _ ';' hsemi
          refine ⟨Or.inl ⟨c1, t.take (skipCount isAlnumAscii t), hl,
              fun d hd => take_skipCount_all isAlnumAscii t d hd, by rw [ht, hsc]⟩,
            by omega, ?_⟩
          rw [ht, hsc,
            show '&' :: c1 :: (t.take (skipCount isAlnumAscii t) ++ [';'])
              = ('&' :: c1 :: t.take (skipCount isAlnumAscii t)) ++ [';'] from by simp]
          exact List.getLast?_concat _
      · simp at h2
      · simp at h2
  · simp at h2

/-- A chunk result carries the chunk kind chosen by the caller and requires
    has_content to be true. -/
theorem finishChunk_some (ck k : TokenType) (res : Bool × Option Nat × Nat)
    (h : (finishChunk ck res).1 = some k) : k = ck ∧ res.1 = true := by
  rcases res with ⟨b, m, u⟩
  cases b
  · simp [finishChunk] at h
  · simp only [finishChunk, Option.some.injEq] at h
    exact ⟨h.symm, rfl⟩

/-- A chunk result is no-match exactly when the loop exits without content. -/
theorem finishChunk_none (ck : TokenType) (res : Bool × Option Nat × Nat)
    (h : (finishChunk ck res).1 = none) : res.1 = false := by
  rcases res with ⟨b, m, u⟩
  cases b
  · rfl
  · simp [finishChunk] at h

/-- finishChunk passes the loop's final cursor count through. -/
theorem finishChunk_used (ck : TokenType) (res : Bool × Option Nat × Nat) :
    (finishChunk ck res).2.2 = res.2.2 := by
  rcases res with ⟨b, m, u⟩
  cases b <;> rfl

/-- finishChunk computes the token length from the marked end, defaulting to
    the cursor count. -/
theorem finishChunk_len (ck : TokenType) (res : Bool × Option Nat × Nat) :
    (finishChunk ck res).2.1 = res.2.1.getD res.2.2 := by
  rcases res with ⟨b, m, u⟩
  cases b <;> rfl

/-- C5: for every input and legality set, scan never emits a token whose kind
    is absent from the legality set, even when that kind would otherwise match
    at the current position. -/
theorem c5_scan_respects_legality (v : ValidSymbols) (s : List Char) (k : TokenType)
    (h : (tree_sitter_nx_external_scanner_scan v s).1 = some k) :
    legalFor v k = true := by
  simp only [tree_sitter_nx_external_scanner_scan] at h
  split at h
  all_goals split_ifs at h
  all_goals
    first
      | exact Option.noConfusion h
      | (obtain ⟨rfl, -⟩ := finishChunk_some _ k _ h
         simp_all [legalFor])
      | (simp only [Option.some.injEq] at h
         subst h
         simp_all [legalFor])

/-- Witness for C5 at a concrete input: with only TextChunk legal, scanning
    the single character a yields a TextChunk, and TextChunk is legal. -/
theorem c5_scan_respects_legality_witness :
    (tree_sitter_nx_external_scanner_scan ⟨true, false, false, false, false, false⟩ ['a']).1
      = some TokenType.TEXT_CHUNK ∧
    legalFor ⟨true, false, false, false, false, false⟩ TokenType.TEXT_CHUNK = true :=
  ⟨by decide,
    c5_scan_respects_legality ⟨true, false, false, false, false, false⟩ ['a']
      TokenType.TEXT_CHUNK (by decide)⟩

/-- C6: on the input Hello &amp; World< with legality set containing TextChunk
    and Entity, three successive scans yield a TextChunk of the 6 characters
    before the ampersand, then an Entity of 5 characters, then a TextChunk of
    the 6 characters before the element-start delimiter. -/
theorem c6_scenario_a :
    tree_sitter_nx_external_scanner_scan ⟨true, false, true, false, false, false⟩
      ['H', 'e', 'l', 'l', 'o', ' ', '&', 'a', 'm', 'p', ';', ' ', 'W', 'o', 'r', 'l', 'd', '<']
      = (some TokenType.TEXT_CHUNK, 6, 6) ∧
    tree_sitter_nx_external_scanner_scan ⟨true, false, true, false, false, false⟩
      (['H', 'e', 'l', 'l', 'o', ' ', '&', 'a', 'm', 'p', ';', ' ', 'W', 'o', 'r', 'l', 'd',
        '<'].drop 6)
      = (some TokenType.ENTITY, 5, 5) ∧
    tree_sitter_nx_external_scanner_scan ⟨true, false, true, false, false, false⟩
      (['H', 'e', 'l', 'l', 'o', ' ', '&', 'a', 'm', 'p', ';', ' ', 'W', 'o', 'r', 'l', 'd',
        '<'].drop 11)
      = (some TokenType.TEXT_CHUNK, 6, 6) := by
  refine ⟨by decide, by decide, by decide⟩

/-- C2, behavior at the failing input: on the input consisting of the four
    characters of an ampersand followed by foo and end of input, with Entity
    and TextChunk legal, the entity attempt consumes all four characters, no
    rollback happens because the scan function saves no position around
    scan_entity, and the scan returns no match instead of the TextChunk the
    spec describes. -/
theorem c2_entity_eof_no_rollback :
    tree_sitter_nx_external_scanner_scan ⟨true, false, true, false, false, false⟩
      ['&', 'f', 'o', 'o'] = (none, 4, 4) := by decide

/-- C1 counterexample: with only TextChunk legal, scanning a backslash
    followed by a right brace returns no match, yet the cursor consumed one
    character (the speculative escape attempt advanced past the backslash and
    the C code returns false without restoring), so the position after the
    call differs from the position before it. -/
theorem c1_counterexample :
    (tree_sitter_nx_external_scanner_scan ⟨true, false, false, false, false, false⟩
      ['\\', rbraceChar]).1 = none ∧
    (tree_sitter_nx_external_scanner_scan ⟨true, false, false, false, false, false⟩
      ['\\', rbraceChar]).2.2 = 1 := by
  refine ⟨by decide, by decide⟩

/-- C1 amended: a no-match call consumes zero characters provided no
    speculative escape attempt (lookahead backslash) and no speculative
    entity attempt (lookahead ampersand with Entity legal) was made; in those
    two speculative cases the cursor may be left advanced on failure. -/
theorem c1_no_match_zero_consumption (v : ValidSymbols) (s : List Char)
    (h1 : s.head? ≠ some '\\')
    (h2 : ¬(s.head? = some '&' ∧ v.entity = true))
    (h3 : (tree_sitter_nx_external_scanner_scan v s).1 = none) :
    (tree_sitter_nx_external_scanner_scan v s).2.2 = 0 := by
  revert h3
  rcases hr : tree_sitter_nx_external_scanner_scan v s with ⟨o, len, used⟩
  intro h3
  have ho : o = none := h3
  subst ho
  show used = 0
  simp only [tree_sitter_nx_external_scanner_scan] at hr
  split at hr
  · rename_i s1
    simp at h1
  · split_ifs at hr
    all_goals try (simp only [Prod.mk.injEq] at hr; omega)
    all_goals
      (have hfn : _ = (none : Option TokenType) := congrArg Prod.fst hr
       have hloop := finishChunk_none _ _ hfn
       have husd : _ = used := congrArg (fun p => p.2.2) hr
       simp only [finishChunk_used] at husd
       rw [← husd]
       exact scan_chunk_loop_no_content_stay _ _ _ _ _ h1 hloop)

/-- Witness for C1 amended at a concrete input: scanning from a position whose
    lookahead is an element-start delimiter returns no match with zero
    consumption. -/
theorem c1_no_match_zero_consumption_witness :
    (tree_sitter_nx_external_scanner_scan ⟨true, false, true, false, false, false⟩ ['<', 'x']).2.2
      = 0 :=
  c1_no_match_zero_consumption ⟨true, false, true, false, false, false⟩ ['<', 'x']
    (by decide) (by decide) (by decide)

/-- A list that matches no backslash-cons pattern has no backslash lookahead. -/
theorem head_ne_backslash (s : List Char)
    (hno : ∀ (s1 : List Char), s = '\\' :: s1 → False) : s.head? ≠ some '\\' := by
  intro hcontra
  cases s with
  | nil => exact Option.noConfusion hcontra
  | cons c t =>
    simp only [List.head?_cons] at hcontra
    exact hno t (by rw [Option.some.inj hcontra])

/-- C8: for every input and legality set, any token the scanner emits has
    length at least one; the scanner never emits a zero-length token. -/
theorem c8_no_zero_length_token (v : ValidSymbols) (s : List Char) (k : TokenType)
    (h : (tree_sitter_nx_external_scanner_scan v s).1 = some k) :
    1 ≤ (tree_sitter_nx_external_scanner_scan v s).2.1 := by
  revert h
  rcases hr : tree_sitter_nx_external_scanner_scan v s with ⟨o, len, used⟩
  intro h
  have ho : o = some k := h
  subst ho
  show 1 ≤ len
  simp only [tree_sitter_nx_external_scanner_scan] at hr
  split at hr
  · split_ifs at hr <;>
      (simp only [Prod.mk.injEq] at hr
       obtain ⟨hbad, hlen, -⟩ := hr
       first
         | exact Option.noConfusion hbad
         | omega)
  · rename_i sx hno
    split_ifs at hr
    all_goals try
      (simp only [Prod.mk.injEq] at hr
       obtain ⟨hbad, hlen, -⟩ := hr
       first
         | exact Option.noConfusion hbad
         | (have hse : scan_entity s = (true, (scan_entity s).2) := by
              rw [← ‹(scan_entity s).1 = true›]
            have h3u := scan_entity_true_min s _ hse
            omega))
    all_goals
      (have hsome : _ = some k := congrArg Prod.fst hr
       obtain ⟨-, hcontent⟩ := finishChunk_some _ _ _ hsome
       have hlen2 : _ = len := congrArg (fun p => p.2.1) hr
       simp only [finishChunk_len] at hlen2
       first
         | (obtain ⟨mv, hmv, hmv1⟩ := scan_chunk_loop_emit_marked _ _ _ _ _ false
              (fun hff => Bool.noConfusion hff)
              (fun _ hhd => absurd hhd (head_ne_backslash s hno)) hcontent
            rw [hmv] at hlen2
            simp only [Option.getD_some] at hlen2
            omega)
         | (have hb : (scan_entity s).1 = false := by
              simpa using ‹¬(scan_entity s).1 = true›
            have hfe : scan_entity s = (false, (scan_entity s).2) := by rw [← hb]
            have hpos := scan_entity_false_pos s _ ‹s.head? = some '&' ∧ v.entity = true›.1 hfe
            obtain ⟨mv, hmv, hmv1⟩ := scan_chunk_loop_emit_marked _ _ _ _ _ false
              (fun hff => Bool.noConfusion hff) (fun _ _ => hpos) hcontent
            rw [hmv] at hlen2
            simp only [Option.getD_some] at hlen2
            omega))

/-- Witness for C8 at a concrete input: scanning the single character a with
    TextChunk legal emits a token, and its length is at least one. -/
theorem c8_no_zero_length_token_witness :
    (tree_sitter_nx_external_scanner_scan ⟨true, false, false, false, false, false⟩ ['a']).1
      = some TokenType.TEXT_CHUNK ∧
    1 ≤ (tree_sitter_nx_external_scanner_scan ⟨true, false, false, false, false, false⟩ ['a']).2.1
    :=
  ⟨by decide,
    c8_no_zero_length_token ⟨true, false, false, false, false, false⟩ ['a']
      TokenType.TEXT_CHUNK (by decide)⟩

/-- Unfolding of the scan function on an input whose lookahead is a
    backslash: the escape-priority branch of scanner.c lines 178-217. -/
theorem scan_backslash_eq (v : ValidSymbols) (s1 : List Char) :
    tree_sitter_nx_external_scanner_scan v ('\\' :: s1) =
      if s1.head? = some lbraceChar then
        (if v.escaped_lbrace then (some TokenType.ESCAPED_LBRACE, 2, 2) else (none, 1, 1))
      else if s1.head? = some rbraceChar then
        (if v.escaped_rbrace then (some TokenType.ESCAPED_RBRACE, 2, 2) else (none, 1, 1))
      else if s1.head? = some '@' ∧ v.escaped_at = true then (some TokenType.ESCAPED_AT, 2, 2)
      else if v.text_chunk || v.embed_text_chunk then
        (some (if v.embed_text_chunk then TokenType.EMBED_TEXT_CHUNK else TokenType.TEXT_CHUNK),
          1, 1)
      else (none, 1, 1) := rfl

/-- Unfolding of one chunk-loop step at a backslash: the loop either commits
    the token end before the backslash and stops, or consumes the backslash
    and continues, depending only on the following character and the mode. -/
theorem chunk_loop_backslash_eq (em ae : Bool) (c2 : Char) (rs : List Char) (n : Nat)
    (marked : Option Nat) (hc : Bool) :
    scan_chunk_loop em ae ('\\' :: c2 :: rs) n marked hc =
      if (c2 :: rs).head? = some lbraceChar ∨ (c2 :: rs).head? = some rbraceChar ∨
          (em = true ∧ (c2 :: rs).head? = some '@')
      then (hc, some n, n + 1)
      else scan_chunk_loop em ae (c2 :: rs) (n + 1) (some n) true := by
  cases em <;> rfl

/-- C3 counterexample: with only TextChunk legal (EscapedLeftBrace absent from
    the legality set), scanning the input a backslash left-brace b stops the
    chunk before the backslash (token length 1, only the character a),
    although the claim says the backslash would be ordinary text there and
    consumption would continue past it. -/
theorem c3_counterexample :
    tree_sitter_nx_external_scanner_scan ⟨true, false, false, false, false, false⟩
      ['a', '\\', lbraceChar, 'b'] = (some TokenType.TEXT_CHUNK, 1, 2) := by decide

/-- C3 amended: during chunk scanning the scan stops before a backslash
    exactly when the following character is a left brace, a right brace, or,
    in embed mode, the interpolation marker, regardless of which escape kinds
    are in the legality set; for any other follower the backslash is consumed
    as ordinary text and the loop continues after it (with the committed end
    still before the backslash until a further ordinary character is
    consumed). -/
theorem c3_chunk_backslash_stop_rule (em ae : Bool) (n : Nat) (marked : Option Nat)
    (c2 : Char) (rs : List Char) :
    ((c2 = lbraceChar ∨ c2 = rbraceChar ∨ (em = true ∧ c2 = '@')) →
      scan_chunk_loop em ae ('\\' :: c2 :: rs) n marked true = (true, some n, n + 1)) ∧
    (¬(c2 = lbraceChar ∨ c2 = rbraceChar ∨ (em = true ∧ c2 = '@')) →
      scan_chunk_loop em ae ('\\' :: c2 :: rs) n marked true
        = scan_chunk_loop em ae (c2 :: rs) (n + 1) (some n) true) := by
  constructor
  · intro hd
    rw [chunk_loop_backslash_eq]
    rw [if_pos (by simpa only [List.head?_cons, Option.some.injEq] using hd)]
  · intro hd
    rw [chunk_loop_backslash_eq]
    rw [if_neg (by simpa only [List.head?_cons, Option.some.injEq] using hd)]

/-- Witness for C3 amended at a concrete input: in text mode, a backslash
    followed by a left brace stops the loop with the committed end before the
    backslash, regardless of escape legality. -/
theorem c3_chunk_backslash_stop_rule_witness :
    scan_chunk_loop false false ['\\', lbraceChar, 'b'] 1 (some 1) true = (true, some 1, 2) :=
  (c3_chunk_backslash_stop_rule false false 1 (some 1) lbraceChar ['b']).1 (Or.inl rfl)

/-- C4 counterexample: with TextChunk legal but EscapedLeftBrace illegal,
    scanning a backslash followed by a left brace returns no match, although
    the claim says the backslash would be folded into a chunk token whenever
    a chunk kind is legal. -/
theorem c4_counterexample :
    (tree_sitter_nx_external_scanner_scan ⟨true, false, false, false, false, false⟩
      ['\\', lbraceChar, 'x']).1 = none ∧
    (⟨true, false, false, false, false, false⟩ : ValidSymbols).text_chunk = true := by
  refine ⟨by decide, by decide⟩

/-- C4 amended: when the lookahead is a backslash, a left-brace or right-brace
    follower yields the corresponding escape token if its kind is legal and
    no match otherwise, regardless of chunk legality; when the follower is
    neither brace and not the interpolation marker with EscapedAt legal, scan
    emits a chunk token exactly when a chunk kind is legal and returns no
    match otherwise. -/
theorem c4_backslash_no_match_policy (v : ValidSymbols) (s1 : List Char) :
    (s1.head? = some lbraceChar →
      (tree_sitter_nx_external_scanner_scan v ('\\' :: s1)).1
        = if v.escaped_lbrace then some TokenType.ESCAPED_LBRACE else none) ∧
    (s1.head? = some rbraceChar →
      (tree_sitter_nx_external_scanner_scan v ('\\' :: s1)).1
        = if v.escaped_rbrace then some TokenType.ESCAPED_RBRACE else none) ∧
    (s1.head? ≠ some lbraceChar → s1.head? ≠ some rbraceChar →
      ¬(s1.head? = some '@' ∧ v.escaped_at = true) →
      (tree_sitter_nx_external_scanner_scan v ('\\' :: s1)).1
        = if v.text_chunk || v.embed_text_chunk
          then some (if v.embed_text_chunk then TokenType.EMBED_TEXT_CHUNK
            else TokenType.TEXT_CHUNK)
          else none) := by
  refine ⟨?_, ?_, ?_⟩
  · intro h1
    rw [scan_backslash_eq, if_pos h1]
    cases hlb : v.escaped_lbrace <;> simp
  · intro h1
    have hne : s1.head? ≠ some lbraceChar := by
      rw [h1]
      decide
    rw [scan_backslash_eq, if_neg hne, if_pos h1]
    cases hrb : v.escaped_rbrace <;> simp
  · intro h1 h2 h3
    rw [scan_backslash_eq, if_neg h1, if_neg h2, if_neg h3]
    cases hall : v.text_chunk || v.embed_text_chunk <;> simp

/-- Witness for C4 amended at concrete inputs: a backslash before a left brace
    with the escape kind illegal gives no match though TextChunk is legal,
    and a backslash before an ordinary letter gives a TextChunk. -/
theorem c4_backslash_no_match_policy_witness :
    (tree_sitter_nx_external_scanner_scan ⟨true, false, false, false, false, false⟩
      ['\\', lbraceChar]).1 = none ∧
    (tree_sitter_nx_external_scanner_scan ⟨true, false, false, false, false, false⟩
      ['\\', 'a']).1 = some TokenType.TEXT_CHUNK :=
  ⟨(c4_backslash_no_match_policy ⟨true, false, false, false, false, false⟩ [lbraceChar]).1 rfl,
    (c4_backslash_no_match_policy ⟨true, false, false, false, false, false⟩ ['a']).2.2
      (by decide) (by decide) (by decide)⟩

/-- C10: when the lookahead is a backslash and the following character (if
    any) is neither brace nor the interpolation marker with EscapedAt legal,
    and a chunk kind is legal, the emitted chunk token is exactly the single
    backslash character: length one, the backslash included, the cursor left
    immediately after it so later characters stay for the next invocation. -/
theorem c10_backslash_fold_single_char (v : ValidSymbols) (c2 : Char) (rs : List Char)
    (h1 : c2 ≠ lbraceChar) (h2 : c2 ≠ rbraceChar)
    (h3 : ¬(c2 = '@' ∧ v.escaped_at = true))
    (h4 : (v.text_chunk || v.embed_text_chunk) = true) :
    tree_sitter_nx_external_scanner_scan v ('\\' :: c2 :: rs)
      = (some (if v.embed_text_chunk then TokenType.EMBED_TEXT_CHUNK
          else TokenType.TEXT_CHUNK), 1, 1) ∧
    ('\\' :: c2 :: rs).take 1 = ['\\'] ∧
    tree_sitter_nx_external_scanner_scan v ['\\']
      = (some (if v.embed_text_chunk then TokenType.EMBED_TEXT_CHUNK
          else TokenType.TEXT_CHUNK), 1, 1) := by
  refine ⟨?_, rfl, ?_⟩
  · rw [scan_backslash_eq,
      if_neg (by simpa only [List.head?_cons, Option.some.injEq] using h1),
      if_neg (by simpa only [List.head?_cons, Option.some.injEq] using h2),
      if_neg (by simpa only [List.head?_cons, Option.some.injEq] using h3),
      if_pos h4]
  · rw [scan_backslash_eq]
    rw [if_neg (by decide), if_neg (by decide), if_neg (by simp), if_pos h4]

/-- Witness for C10 at a concrete input: with TextChunk legal, a backslash
    before an ordinary letter is emitted as a one-character TextChunk. -/
theorem c10_backslash_fold_single_char_witness :
    tree_sitter_nx_external_scanner_scan ⟨true, false, false, false, false, false⟩
      ['\\', 'a', 'b'] = (some TokenType.TEXT_CHUNK, 1, 1) ∧
    ('\\' :: 'a' :: ['b']).take 1 = ['\\'] :=
  ⟨((c10_backslash_fold_single_char ⟨true, false, false, false, false, false⟩ 'a' ['b']
      (by decide) (by decide) (by decide) (by decide)).1),
    ((c10_backslash_fold_single_char ⟨true, false, false, false, false, false⟩ 'a' ['b']
      (by decide) (by decide) (by decide) (by decide)).2.1)⟩

/-- C7: every emitted Entity token matches one of the three entity shapes
    (named, decimal numeric, hexadecimal numeric), spans the full matched
    sequence including the terminating semicolon, hence has length at least
    three and ends with a semicolon. -/
theorem c7_entity_token_shape (v : ValidSymbols) (s : List Char)
    (h : (tree_sitter_nx_external_scanner_scan v s).1 = some TokenType.ENTITY) :
    EntityShape (s.take (tree_sitter_nx_external_scanner_scan v s).2.1) ∧
    3 ≤ (tree_sitter_nx_external_scanner_scan v s).2.1 ∧
    (s.take (tree_sitter_nx_external_scanner_scan v s).2.1).getLast? = some ';' := by
  revert h
  rcases hr : tree_sitter_nx_external_scanner_scan v s with ⟨o, len, used⟩
  intro h
  have ho : o = some TokenType.ENTITY := h
  subst ho
  show EntityShape (s.take len) ∧ 3 ≤ len ∧ (s.take len).getLast? = some ';'
  simp only [tree_sitter_nx_external_scanner_scan] at hr
  split at hr
  · split_ifs at hr <;>
      (simp only [Prod.mk.injEq] at hr
       obtain ⟨hbad, -, -⟩ := hr
       first
         | exact Option.noConfusion hbad
         | exact absurd (Option.some.inj hbad) (by decide))
  · rename_i sx hno
    split_ifs at hr
    all_goals try
      (simp only [Prod.mk.injEq] at hr
       obtain ⟨hbad, hlen, -⟩ := hr
       first
         | exact Option.noConfusion hbad
         | (have hse : scan_entity s = (true, (scan_entity s).2) := by
              rw [← ‹(scan_entity s).1 = true›]
            subst hlen
            exact scan_entity_shape s _ hse))
    all_goals
      (have hsome : _ = some TokenType.ENTITY := congrArg Prod.fst hr
       obtain ⟨hkind, -⟩ := finishChunk_some _ _ _ hsome
       exact absurd hkind (by decide))

/-- Witness for C7 at a concrete input: scanning the three-character entity
    ampersand a semicolon with Entity legal produces an Entity token whose
    text has the named shape, length at least three, and a final semicolon. -/
theorem c7_entity_token_shape_witness :
    EntityShape ((['&', 'a', ';'] : List Char).take
      (tree_sitter_nx_external_scanner_scan ⟨false, false, true, false, false, false⟩
        ['&', 'a', ';']).2.1) ∧
    3 ≤ (tree_sitter_nx_external_scanner_scan ⟨false, false, true, false, false, false⟩
      ['&', 'a', ';']).2.1 ∧
    ((['&', 'a', ';'] : List Char).take
      (tree_sitter_nx_external_scanner_scan ⟨false, false, true, false, false, false⟩
        ['&', 'a', ';']).2.1).getLast? = some ';' :=
  c7_entity_token_shape ⟨false, false, true, false, false, false⟩ ['&', 'a', ';'] (by decide)

/-- C9 counterexample: with TextChunk and EscapedAt legal but EmbedTextChunk
    not legal (so the scanner is not in embed mode), scanning a backslash
    followed by the interpolation marker emits EscapedAt, although the claim
    says EscapedAt is never returned outside embed mode. -/
theorem c9_counterexample :
    (tree_sitter_nx_external_scanner_scan ⟨true, false, false, false, false, true⟩
      ['\\', '@', 'x']).1 = some TokenType.ESCAPED_AT ∧
    (⟨true, false, false, false, false, true⟩ : ValidSymbols).embed_text_chunk = false := by
  refine ⟨by decide, by decide⟩

/-- C9 amended: the scanner emits EscapedAt whenever the input starts with a
    backslash-marker pair and EscapedAt is legal, without checking the mode;
    under the documented precondition that the parser makes EscapedAt legal
    only in embed mode, every EscapedAt emission therefore happens in embed
    mode. -/
theorem c9_escaped_at_requires_embed (v : ValidSymbols) (s : List Char)
    (hpre : v.escaped_at = true → v.embed_text_chunk = true)
    (h : (tree_sitter_nx_external_scanner_scan v s).1 = some TokenType.ESCAPED_AT) :
    v.embed_text_chunk = true := by
  revert h
  rcases hr : tree_sitter_nx_external_scanner_scan v s with ⟨o, len, used⟩
  intro h
  have ho : o = some TokenType.ESCAPED_AT := h
  subst ho
  simp only [tree_sitter_nx_external_scanner_scan] at hr
  split at hr
  · rename_i s1
    split_ifs at hr
    all_goals try
      (simp only [Prod.mk.injEq] at hr
       obtain ⟨hbad, -, -⟩ := hr
       first
         | exact Option.noConfusion hbad
         | exact absurd (Option.some.inj hbad) (by decide))
    exact hpre ‹s1.head? = some '@' ∧ v.escaped_at = true›.2
  · split_ifs at hr
    all_goals try
      (simp only [Prod.mk.injEq] at hr
       obtain ⟨hbad, -, -⟩ := hr
       first
         | exact Option.noConfusion hbad
         | exact absurd (Option.some.inj hbad) (by decide))
    all_goals
      (have hsome : _ = some TokenType.ESCAPED_AT := congrArg Prod.fst hr
       obtain ⟨hkind, -⟩ := finishChunk_some _ _ _ hsome
       exact absurd hkind (by decide))

/-- Witness for C9 amended at a concrete input: in embed mode with EscapedAt
    legal, scanning a backslash-marker pair emits EscapedAt and the scanner
    is indeed in embed mode. -/
theorem c9_escaped_at_requires_embed_witness :
    (tree_sitter_nx_external_scanner_scan ⟨false, true, false, false, false, true⟩
      ['\\', '@']).1 = some TokenType.ESCAPED_AT ∧
    (⟨false, true, false, false, false, true⟩ : ValidSymbols).embed_text_chunk = true :=
  ⟨by decide,
    c9_escaped_at_requires_embed ⟨false, true, false, false, false, true⟩ ['\\', '@']
      (by decide) (by decide)⟩
